import Mathlib

/-!
Verification of the Video-Compression orchestration scripts
(`videocompress.py`, `50mb.py`) against their natural-language specification.

The Python code is shallowly embedded: pure computations become Lean
functions over `ℚ` (Python floats are modelled as exact rationals),
stateful code becomes explicit state passing, subprocess / filesystem
effects become explicit parameters and artifact sets, and Python
exceptions become `Option` / `Except` results.
-/

/-! ## Constants (videocompress.py lines 15-18) -/

def MB_TO_BYTES : ℕ := 1024 * 1024

def MB_TO_BITS : ℕ := 8 * 1024 * 1024

def BITRATE_SAFETY_FACTOR : ℚ := 9 / 10

/-! ## ProgressTracker (videocompress.py lines 195-239, identical in 50mb.py)

The Python class holds two segment durations, per-segment elapsed time,
fps and speed, and a mutex.  The mutex only serialises `update` /
`get_stats`; the serialised behaviour is modelled by explicit state
passing, one `update` at a time.  `total_dur` is stored at construction
exactly as `self.total_dur = duration_a + duration_b`.
-/

structure Tracker where
  dur_a : ℚ
  dur_b : ℚ
  total_dur : ℚ
  time_a : ℚ
  time_b : ℚ
  fps_a : ℚ
  fps_b : ℚ
  spd_a : ℚ
  spd_b : ℚ
deriving DecidableEq, Repr

/-- `ProgressTracker.__init__(duration_a, duration_b)`:
times and fps start at `0.0`, speeds at `0.001`. -/
def Tracker.init (duration_a duration_b : ℚ) : Tracker :=
  { dur_a := duration_a
    dur_b := duration_b
    total_dur := duration_a + duration_b
    time_a := 0
    time_b := 0
    fps_a := 0
    fps_b := 0
    spd_a := 1 / 1000
    spd_b := 1 / 1000 }

/-- Arguments of one `ProgressTracker.update(is_a, time_val, fps_val, speed_val)` call. -/
structure UpdateCall where
  is_a : Bool
  time_val : ℚ
  fps_val : ℚ
  speed_val : ℚ
deriving DecidableEq, Repr

/-- `ProgressTracker.update`: the elapsed time of the targeted segment is
assigned unconditionally; fps and speed are assigned only when the new
value is truthy, i.e. non-zero (`if fps_val:` / `if speed_val:`). -/
def Tracker.update (s : Tracker) (u : UpdateCall) : Tracker :=
  if u.is_a then
    { s with
      time_a := u.time_val
      fps_a := if u.fps_val ≠ 0 then u.fps_val else s.fps_a
      spd_a := if u.speed_val ≠ 0 then u.speed_val else s.spd_a }
  else
    { s with
      time_b := u.time_val
      fps_b := if u.fps_val ≠ 0 then u.fps_val else s.fps_b
      spd_b := if u.speed_val ≠ 0 then u.speed_val else s.spd_b }

/-- Python `int(q)` truncates toward zero. -/
def ratTrunc (q : ℚ) : ℤ := if q < 0 then -⌊-q⌋ else ⌊q⌋

/-- `ProgressTracker.get_stats`: returns `(progress, fps, int(eta))`.
The divisions are `ℚ` divisions here; the Python `ZeroDivisionError`
behaviour is modelled separately by `Tracker.get_stats_exc`. -/
def Tracker.get_stats (s : Tracker) : ℚ × ℚ × ℤ :=
  let t_a := min s.time_a s.dur_a
  let t_b := min s.time_b s.dur_b
  let prog := min 100 ((t_a + t_b) / s.total_dur * 100)
  let fps := s.fps_a + s.fps_b
  let rem_a := max 0 (s.dur_a - s.time_a)
  let rem_b := max 0 (s.dur_b - s.time_b)
  let eta := max (rem_a / s.spd_a) (rem_b / s.spd_b)
  (prog, fps, ratTrunc eta)

/-- `get_stats` with Python division semantics: a zero divisor raises
`ZeroDivisionError` (modelled as `none`), in evaluation order: the
progress division by `total_dur` first, then `rem_a / spd_a`,
then `rem_b / spd_b`. -/
def Tracker.get_stats_exc (s : Tracker) : Option (ℚ × ℚ × ℤ) :=
  if s.total_dur = 0 then none
  else if s.spd_a = 0 then none
  else if s.spd_b = 0 then none
  else some s.get_stats

/-- The progress component of `get_stats`. -/
def progressOf (s : Tracker) : ℚ := s.get_stats.1

/-- Run a sequence of `update` calls from a starting state. -/
def applyUpdates (s : Tracker) : List UpdateCall → Tracker
  | [] => s
  | u :: us => applyUpdates (s.update u) us

/-- A run of `update` calls in which each call's elapsed time is at least
the elapsed time currently stored for its segment. -/
def increasingRun (s : Tracker) : List UpdateCall → Bool
  | [] => true
  | u :: us =>
    (if u.is_a then decide (s.time_a ≤ u.time_val) else decide (s.time_b ≤ u.time_val))
      && increasingRun (s.update u) us

/-! ## monitor_process line handling (videocompress.py lines 241-276)

A progress line is abstracted to its three recognised tokens, each
optional.  The code updates the tracker only when `time=` matched, and
then passes `0.0` for a missing `fps=` token and `0.001` for a missing
`speed=` token. -/

structure ParsedLine where
  timeTok : Option ℚ
  fpsTok : Option ℚ
  speedTok : Option ℚ
deriving DecidableEq, Repr

/-- The per-line effect of `monitor_process` on the tracker:
no `time=` match means no `update` call at all; otherwise
`fps = float(f_match) if f_match else 0.0` and
`spd = float(s_match) if s_match else 0.001` are passed to `update`. -/
def processLine (s : Tracker) (is_a : Bool) (line : ParsedLine) : Tracker :=
  match line.timeTok with
  | none => s
  | some t => s.update ⟨is_a, t, line.fpsTok.getD 0, line.speedTok.getD (1 / 1000)⟩

/-! ## Smart split point (videocompress.py lines 167-191, 50mb.py lines 80-95)

A probed video packet carries its byte size, presentation timestamp and
keyframe flag (the Python code reads `'K' in p.get('flags','')`,
`float(p.get('pts_time', 0))`, `int(p.get('size', 0))`). -/

structure Packet where
  size : ℕ
  pts : ℚ
  key : Bool
deriving DecidableEq, Repr

/-- The exceptions the packet enumeration can raise.  `videocompress.py`
catches `(json.JSONDecodeError, KeyError, ValueError, OSError)` but its
`subprocess.run(..., check=True)` can also raise `CalledProcessError`,
which that tuple does not cover. -/
inductive ProbeExc
  | jsonDecodeError
  | keyError
  | valueError
  | osError
  | calledProcessError
deriving DecidableEq, Repr

/-- The `for p in packets:` loop of `get_smart_split_point`, with the
running byte total `curr` and the sentinel-valued last keyframe
timestamp `last_k` (initially `0.0`).  After the loop falls through,
`duration / 2` is returned. -/
def splitLoop (duration target : ℚ) : ℚ → ℚ → List Packet → ℚ
  | _, _, [] => duration / 2
  | curr, last_k, p :: ps =>
    let c := curr + (p.size : ℚ)
    let k := if p.key then p.pts else last_k
    if target ≤ c then (if 0 < k then k else duration / 2)
    else splitLoop duration target c k ps

/-- `get_smart_split_point` of videocompress.py: the enumeration result
is a parameter (`Except` models the ffprobe invocation and JSON parse).
`CalledProcessError` is not in the `except` tuple, so it propagates out
of the function; every listed exception falls back to `duration / 2`. -/
def get_smart_split_point (probe : Except ProbeExc (List Packet)) (duration : ℚ) :
    Except ProbeExc ℚ :=
  match probe with
  | .ok packets =>
    .ok (splitLoop duration (((packets.map (fun p => (p.size : ℚ))).sum) / 2) 0 0 packets)
  | .error e =>
    match e with
    | .calledProcessError => .error .calledProcessError
    | _ => .ok (duration / 2)

/-- `get_smart_split_point` of 50mb.py: `subprocess.run` without
`check=True` and a bare `except:` — every enumeration failure falls
back to `duration / 2`. -/
def get_smart_split_point_50mb (probe : Except ProbeExc (List Packet)) (duration : ℚ) : ℚ :=
  match probe with
  | .ok packets =>
    splitLoop duration (((packets.map (fun p => (p.size : ℚ))).sum) / 2) 0 0 packets
  | .error _ => duration / 2

/-- The split loop as the spec's sentence states it: track the most
recent keyframe actually observed (`Option`, not a `0.0` sentinel), and
at the crossing return it whenever one was observed. -/
def specSplitLoopClaim (duration target : ℚ) : ℚ → Option ℚ → List Packet → ℚ
  | _, _, [] => duration / 2
  | curr, lastKey, p :: ps =>
    let c := curr + (p.size : ℚ)
    let k := if p.key then some p.pts else lastKey
    if target ≤ c then
      (match k with
       | some t => t
       | none => duration / 2)
    else specSplitLoopClaim duration target c k ps

/-- The claim's reading of the planner on a successful enumeration. -/
def specSplitClaim (packets : List Packet) (duration : ℚ) : ℚ :=
  specSplitLoopClaim duration (((packets.map (fun p => (p.size : ℚ))).sum) / 2) 0 none packets

/-- The amended reading: the last observed keyframe timestamp is only
used when it is strictly positive (the code's `last_k > 0` test conflates
"no keyframe seen" with "keyframe seen at timestamp ≤ 0"). -/
def specSplitLoopAmended (duration target : ℚ) : ℚ → Option ℚ → List Packet → ℚ
  | _, _, [] => duration / 2
  | curr, lastKey, p :: ps =>
    let c := curr + (p.size : ℚ)
    let k := if p.key then some p.pts else lastKey
    if target ≤ c then
      (match k with
       | some t => if 0 < t then t else duration / 2
       | none => duration / 2)
    else specSplitLoopAmended duration target c k ps

/-- The amended planner reading on a successful enumeration. -/
def specSplitAmended (packets : List Packet) (duration : ℚ) : ℚ :=
  specSplitLoopAmended duration (((packets.map (fun p => (p.size : ℚ))).sum) / 2) 0 none packets

/-! ## Bitrate allocation (videocompress.py lines 517-523, 616-622, 631-634) -/

/-- Per-segment bitrate of the two-segment paths: for each segment
duration `d` the loop computes
`audio_mb = (audio_kbps * d * 1000) / 8 / MB_TO_BYTES`,
`video_mb = max(0.5, tgt_part_mb - audio_mb)` with
`tgt_part_mb = target_size_mb / 2`, and
`br_k = math.floor(((video_mb * MB_TO_BITS) / d / 1000) * BITRATE_SAFETY_FACTOR)`. -/
def split_bitrate_k (target_size_mb audio_kbps d : ℚ) : ℤ :=
  let tgt_part_mb := target_size_mb / 2
  let audio_mb := audio_kbps * d * 1000 / 8 / (MB_TO_BYTES : ℚ)
  let video_mb := max (1 / 2) (tgt_part_mb - audio_mb)
  ⌊video_mb * (MB_TO_BITS : ℚ) / d / 1000 * BITRATE_SAFETY_FACTOR⌋

/-- The bitrate pair computed by the `for d in durs:` loop over
`durs = [split_time, duration - split_time]`. -/
def split_bitrates (target_size_mb audio_kbps split_time duration : ℚ) : ℤ × ℤ :=
  (split_bitrate_k target_size_mb audio_kbps split_time,
   split_bitrate_k target_size_mb audio_kbps (duration - split_time))

/-- The serial CPU path (videocompress.py lines 631-634):
`tgt_bits = target_size_mb * MB_TO_BITS`,
`vid_bits = max(0, tgt_bits - audio_kbps * 1000 * duration)`,
`vid_br = math.floor(((vid_bits / duration) / 1000) * BITRATE_SAFETY_FACTOR)`. -/
def single_pass_bitrate_k (target_size_mb audio_kbps duration : ℚ) : ℤ :=
  let tgt_bits := target_size_mb * (MB_TO_BITS : ℚ)
  let vid_bits := max 0 (tgt_bits - audio_kbps * 1000 * duration)
  ⌊vid_bits / duration / 1000 * BITRATE_SAFETY_FACTOR⌋

/-- `MIN_SEGMENT_MB` as the spec names the `0.5` floor. -/
def MIN_SEGMENT_MB : ℚ := 1 / 2

/-- The spec's allocation formula, word for word:
`audio_share_MB = audio_kbps * segment_duration_s * 1000 / 8 / (1024*1024)`,
`video_share_MB = max(MIN_SEGMENT_MB, target_share_MB - audio_share_MB)`,
`video_bitrate_kbps = floor(video_share_MB * 8 * 1024 / segment_duration_s * SAFETY_FACTOR)`
with `SAFETY_FACTOR = 0.90`. -/
def spec_video_bitrate_kbps (target_share_mb audio_kbps d : ℚ) : ℤ :=
  let audio_share_mb := audio_kbps * d * 1000 / 8 / (1024 * 1024 : ℚ)
  let video_share_mb := max MIN_SEGMENT_MB (target_share_mb - audio_share_mb)
  ⌊video_share_mb * 8 * 1024 / d * (9 / 10)⌋

/-- The amended spec formula for the two-segment paths: the MB→kbps
conversion the code performs is `8 * 1024 * 1024 / 1000` (kilobit =
1000 bits), not `8 * 1024`. -/
def spec_video_bitrate_kbps_fixed (target_share_mb audio_kbps d : ℚ) : ℤ :=
  let audio_share_mb := audio_kbps * d * 1000 / 8 / (1024 * 1024 : ℚ)
  let video_share_mb := max MIN_SEGMENT_MB (target_share_mb - audio_share_mb)
  ⌊video_share_mb * 8 * 1024 * 1024 / 1000 / d * (9 / 10)⌋

/-- The amended spec formula for the single unsplit pass: same corrected
conversion, and the video share floor is `0`, not `MIN_SEGMENT_MB`. -/
def spec_single_pass_kbps_fixed (target_mb audio_kbps d : ℚ) : ℤ :=
  let audio_share_mb := audio_kbps * d * 1000 / 8 / (1024 * 1024 : ℚ)
  let video_share_mb := max 0 (target_mb - audio_share_mb)
  ⌊video_share_mb * 8 * 1024 * 1024 / 1000 / d * (9 / 10)⌋

/-! ## Encoder selection (videocompress.py lines 80-135) -/

inductive Platform
  | linux
  | darwin
  | win32
  | other
deriving DecidableEq, Repr

/-- The platform-specific candidate chains of `select_best_encoder`. -/
def priority_chain : Platform → List String
  | .linux => ["hevc_nvenc", "hevc_vaapi"]
  | .darwin => ["hevc_videotoolbox"]
  | .win32 => ["hevc_nvenc", "hevc_amf", "hevc_qsv"]
  | .other => ["hevc_nvenc", "hevc_vaapi", "hevc_videotoolbox", "hevc_amf", "hevc_qsv"]

/-- Possible outcomes of one synthetic test-encode probe. -/
inductive ProbeOutcome
  | ok
  | exitNonzero
  | missingBinary
  | osError
deriving DecidableEq, Repr

/-- `check_encoder_available`: the probe succeeds only when the test
encode exits 0; `CalledProcessError`, `FileNotFoundError` and `OSError`
are all caught and reported as `False`. -/
def check_encoder_available (probe : String → ProbeOutcome) (enc : String) : Bool :=
  match probe enc with
  | .ok => true
  | .exitNonzero => false
  | .missingBinary => false
  | .osError => false

/-- The `for enc in priority_chain:` loop of `select_best_encoder`,
returning `"libx265"` when no candidate is available. -/
def selectLoop (probe : String → ProbeOutcome) : List String → String
  | [] => "libx265"
  | e :: rest => if check_encoder_available probe e then e else selectLoop probe rest

/-- `select_best_encoder`, with the platform and the probe outcomes as
explicit parameters. -/
def select_best_encoder (p : Platform) (probe : String → ProbeOutcome) : String :=
  selectLoop probe (priority_chain p)

/-! ## compress_video: early phase and CLI exit code
(videocompress.py lines 476-502 and 650-668)

Result messages are abstracted to tags (the Python code returns
formatted strings). -/

inductive Msg
  | inputNotFound
  | infoFailed
  | alreadySmaller
  | pass1Failed
  | pass2Failed
  | stitchFailed
  | cancelled
  | encodeFailed
  | outputMissing
  | keyboardInterrupt
  | calledProcessError
  | outputPath
deriving DecidableEq, Repr

/-- The probe result consumed by `compress_video`
(`get_video_info`: duration, size in bytes, fps, audio kbps). -/
structure VideoInfo where
  duration : ℚ
  sizeBytes : ℕ
  fps : ℚ
  audioKbps : ℕ
deriving DecidableEq, Repr

/-- The early phase of `compress_video`, up to and including the
already-smaller check (lines 495-502), with the whole encoding phase —
everything from `select_best_encoder` on — abstracted as the parameter
`encodePhase`.  The second component counts encoder-process launches
(test-encode probes and encode passes); the three early-return branches
run before `select_best_encoder` and launch none. -/
def compress_video_model (inputExists : Bool) (probedInfo : Option VideoInfo)
    (target_size_mb : ℕ) (encodePhase : VideoInfo → (Bool × Msg) × ℕ) :
    (Bool × Msg) × ℕ :=
  if ¬ inputExists then ((false, Msg.inputNotFound), 0)
  else
    match probedInfo with
    | none => ((false, Msg.infoFailed), 0)
    | some info =>
      if (info.sizeBytes : ℚ) / (MB_TO_BYTES : ℚ) ≤ (target_size_mb : ℚ) then
        ((false, Msg.alreadySmaller), 0)
      else encodePhase info

/-- The `__main__` block: `if not success: sys.exit(1)`, implicit exit 0
otherwise. -/
def mainExitCode (success : Bool) : ℕ := if success then 0 else 1

/-! ## Cleanup (videocompress.py lines 62-78 and 604-607)

The filesystem is modelled as the finite set of existing file paths.
`os.remove` guarded by `os.path.exists` and `try/except OSError` never
raises, so the embedding is a total function on that set. -/

def LOG_FILES_TO_CLEAN : List String :=
  ["ffmpeg2pass.log", "ffmpeg2pass-0.log", "ffmpeg2pass-0.log.mbtree"]

/-- `if os.path.exists(f): os.remove(f)` inside `try/except OSError`. -/
def removeIfExists (fs : Finset String) (f : String) : Finset String :=
  if f ∈ fs then fs.erase f else fs

/-- `clean_log_file(prefixes)`: remove the fixed log names, then
`p + "-0.log"` and `p + "-0.log.mbtree"` for each prefix. -/
def clean_log_file (fs : Finset String) (prefixes : List String) : Finset String :=
  let fs1 := LOG_FILES_TO_CLEAN.foldl removeIfExists fs
  prefixes.foldl
    (fun acc p => removeIfExists (removeIfExists acc (p ++ "-0.log")) (p ++ "-0.log.mbtree"))
    fs1

/-- `shutil.rmtree(temp_dir)` inside `try/except OSError`: every path
under the temporary directory disappears; missing directory is not an
error. -/
def rmtreeDir (fs : Finset String) (dir : String) : Finset String :=
  fs.filter (fun f => dir.isPrefixOf f = false)

/-- The `finally` block of `compress_video` (lines 604-607): remove the
temporary directory, then `clean_log_file()` (no prefixes). -/
def cleanupJob (tmp : String) (prefixes : List String) (fs : Finset String) : Finset String :=
  clean_log_file (rmtreeDir fs tmp) prefixes

/-! ## Transient artifacts of the NVENC two-pass path
(videocompress.py lines 510-607, 50mb.py lines 181-253)

The artifacts a split two-pass job can create.  In videocompress.py all
of them live inside the `tempfile.mkdtemp` directory; in 50mb.py all of
them live in the current working directory. -/

inductive Art
  | tmpdir
  | logA
  | logB
  | part1
  | part2
  | listFile
deriving DecidableEq, Repr

/-- External-world outcomes of one split two-pass job: per-pass process
exit successes, whether each phase got far enough to write its files,
whether a `KeyboardInterrupt` arrives during a pass, and whether the
concat invocation succeeds. -/
structure EncEnv where
  pass1Logs : Bool
  interrupt1 : Bool
  pass1aOk : Bool
  pass1bOk : Bool
  pass2Parts : Bool
  interrupt2 : Bool
  pass2aOk : Bool
  pass2bOk : Bool
  stitchOk : Bool
deriving DecidableEq, Repr

/-- The `try` body of videocompress.py's NVENC branch together with its
`except KeyboardInterrupt` handler: pass 1 writes its pass logs into the
temp dir, a failed pass returns early, pass 2 writes `p1.mp4`/`p2.mp4`,
stitching writes `list.txt`; an interrupt is caught and returned as
`Cancelled`.  The artifact set at the moment of returning is paired with
the result. -/
def vcNvencTry (env : EncEnv) (fs : Finset Art) : (Bool × Msg) × Finset Art :=
  let fs1 := if env.pass1Logs then insert Art.logA (insert Art.logB fs) else fs
  if env.interrupt1 then ((false, Msg.cancelled), fs1)
  else if ¬ (env.pass1aOk ∧ env.pass1bOk) then ((false, Msg.pass1Failed), fs1)
  else
    let fs2 := if env.pass2Parts then insert Art.part1 (insert Art.part2 fs1) else fs1
    if env.interrupt2 then ((false, Msg.cancelled), fs2)
    else if ¬ (env.pass2aOk ∧ env.pass2bOk) then ((false, Msg.pass2Failed), fs2)
    else
      let fs3 := insert Art.listFile fs2
      if ¬ env.stitchOk then ((false, Msg.stitchFailed), fs3)
      else ((true, Msg.outputPath), fs3)

/-- `shutil.rmtree(temp_dir)` on the artifact model: every artifact of
this path is a path inside `temp_dir` (`os.path.join(temp_dir, ...)`),
so all of them go. -/
def rmtreeTmpArts (fs : Finset Art) : Finset Art :=
  ((((((fs.erase Art.tmpdir).erase Art.logA).erase Art.logB).erase
      Art.part1).erase Art.part2).erase Art.listFile)

/-- videocompress.py's NVENC branch: `mkdtemp`, the guarded body, and
the `finally` block that removes the temp directory on every exit path
(the `clean_log_file()` call in `finally` touches only the fixed cwd
names, none of which this path creates). -/
def vcNvenc (env : EncEnv) : (Bool × Msg) × Finset Art :=
  let fs0 : Finset Art := {Art.tmpdir}
  let r := vcNvencTry env fs0
  (r.1, rmtreeTmpArts r.2)

/-- 50mb.py's NVENC branch: same process structure, but the artifacts
live in the cwd, there is no `try/finally`, a failed pass returns with
no cleanup, `KeyboardInterrupt` propagates (modelled as `Except.error`),
and the `check=True` concat raises `CalledProcessError` uncaught; only
the success path removes the logs, parts and manifest. -/
def fiftyNvenc (env : EncEnv) : Except Msg (Bool × Msg) × Finset Art :=
  let fs1 : Finset Art := if env.pass1Logs then {Art.logA, Art.logB} else ∅
  if env.interrupt1 then (.error Msg.keyboardInterrupt, fs1)
  else if ¬ (env.pass1aOk ∧ env.pass1bOk) then (.ok (false, Msg.pass1Failed), fs1)
  else
    let fs2 := if env.pass2Parts then insert Art.part1 (insert Art.part2 fs1) else fs1
    if env.interrupt2 then (.error Msg.keyboardInterrupt, fs2)
    else if ¬ (env.pass2aOk ∧ env.pass2bOk) then (.ok (false, Msg.pass2Failed), fs2)
    else
      let fs3 := insert Art.listFile fs2
      if ¬ env.stitchOk then (.error Msg.calledProcessError, fs3)
      else
        let fs4 := (fs3.erase Art.logA).erase Art.logB
        let fs5 := ((fs4.erase Art.part1).erase Art.part2).erase Art.listFile
        (.ok (true, Msg.outputPath), fs5)

/-- `encode_split_single_pass_hw` (videocompress.py lines 407-474):
its own `mkdtemp`-rooted `p1.mp4`, `p2.mp4`, `list.txt`, a plain
`try/finally` with `shutil.rmtree` and no `except`, so even a
propagating exception leaves no artifacts behind. -/
def vcHwSplit (env : EncEnv) : Except Msg (Bool × Msg) × Finset Art :=
  let fs0 : Finset Art := {Art.tmpdir}
  let body : Except Msg (Bool × Msg) × Finset Art :=
    let fs1 := if env.pass2Parts then insert Art.part1 (insert Art.part2 fs0) else fs0
    if env.interrupt1 then (.error Msg.keyboardInterrupt, fs1)
    else if ¬ (env.pass1aOk ∧ env.pass1bOk) then (.ok (false, Msg.encodeFailed), fs1)
    else
      let fs2 := insert Art.listFile fs1
      if ¬ env.stitchOk then (.ok (false, Msg.stitchFailed), fs2)
      else (.ok (true, Msg.outputPath), fs2)
  (body.1, rmtreeTmpArts body.2)

/-! # Theorems -/

/-! ## C6: ProgressTracker.update field semantics -/

/-- Claim C6: for every ProgressTracker state and every update call, the
elapsed time of the targeted segment is always overwritten, while the
segment's fps and speed fields are overwritten if and only if the new
value is non-zero; in particular a zero fps or speed value passed to
update never replaces a previously recorded non-zero value. -/
theorem C6_update_semantics (s : Tracker) (u : UpdateCall) :
    ((s.update u).time_a = if u.is_a then u.time_val else s.time_a)
    ∧ ((s.update u).time_b = if u.is_a then s.time_b else u.time_val)
    ∧ (u.fps_val = 0 → (s.update u).fps_a = s.fps_a ∧ (s.update u).fps_b = s.fps_b)
    ∧ (u.fps_val ≠ 0 →
        (if u.is_a then (s.update u).fps_a else (s.update u).fps_b) = u.fps_val)
    ∧ (u.speed_val = 0 → (s.update u).spd_a = s.spd_a ∧ (s.update u).spd_b = s.spd_b)
    ∧ (u.speed_val ≠ 0 →
        (if u.is_a then (s.update u).spd_a else (s.update u).spd_b) = u.speed_val) := by
  cases hu : u.is_a <;>
    refine ⟨by simp [Tracker.update, hu], by simp [Tracker.update, hu], ?_, ?_, ?_, ?_⟩ <;>
    intro h <;> simp [Tracker.update, hu, h]

/-- Witness for C6 at a concrete state and call: a zero fps value leaves
both fps fields untouched. -/
theorem C6_update_semantics_witness :
    (Tracker.update (Tracker.init 5 5) ⟨true, 3, 0, 2⟩).fps_a = (Tracker.init 5 5).fps_a
    ∧ (Tracker.update (Tracker.init 5 5) ⟨true, 3, 0, 2⟩).fps_b = (Tracker.init 5 5).fps_b :=
  (C6_update_semantics (Tracker.init 5 5) ⟨true, 3, 0, 2⟩).2.2.1 rfl

/-! ## C5: token absence in a progress line -/

/-- Claim C5 counterexample: a line that contains `time=` and `fps=` but
lacks `speed=` does NOT leave the speed field unchanged — the monitor
passes the default `0.001`, which is truthy, so `update` overwrites the
previously recorded speed `2` with `0.001`. -/
theorem C5_counterexample :
    (processLine (Tracker.update (Tracker.init 10 10) ⟨true, 1, 30, 2⟩) true
        ⟨some 2, some 31, none⟩).spd_a = 1 / 1000
    ∧ (Tracker.update (Tracker.init 10 10) ⟨true, 1, 30, 2⟩).spd_a = 2
    ∧ ((1 : ℚ) / 1000) ≠ 2 := by
  refine ⟨?_, ?_, ?_⟩ <;> norm_num [processLine, Tracker.update, Tracker.init]

/-- Claim C5 amended: a line lacking the `time=` token changes no
tracker field; a line with `time=` but no `fps=` token leaves both fps
fields unchanged; a line with `time=` but no `speed=` token sets the
targeted segment's speed to the fixed default `0.001` (it does not leave
a previously recorded speed unchanged). -/
theorem C5_amended_token_absence (s : Tracker) (a : Bool) (line : ParsedLine) :
    (line.timeTok = none → processLine s a line = s)
    ∧ (∀ t, line.timeTok = some t → line.fpsTok = none →
        (processLine s a line).fps_a = s.fps_a ∧ (processLine s a line).fps_b = s.fps_b)
    ∧ (∀ t, line.timeTok = some t → line.speedTok = none →
        (if a then (processLine s a line).spd_a else (processLine s a line).spd_b)
          = 1 / 1000) := by
  obtain ⟨tt, ft, st⟩ := line
  refine ⟨?_, ?_, ?_⟩
  · intro h
    simp only at h
    subst h
    rfl
  · rintro t rfl rfl
    cases a <;> simp [processLine, Tracker.update]
  · rintro t rfl rfl
    cases a <;> norm_num [processLine, Tracker.update]

/-- Witness for C5's amended theorem: a line with no `time=` token is a
no-op on a concrete tracker. -/
theorem C5_amended_token_absence_witness :
    processLine (Tracker.init 10 10) true ⟨none, some 3, some 2⟩ = Tracker.init 10 10 :=
  (C5_amended_token_absence (Tracker.init 10 10) true ⟨none, some 3, some 2⟩).1 rfl

/-! ## C1: the already-smaller early exit and the process exit code -/

/-- Claim C1 counterexample (spec Scenario B): a 50 MB source with a
100 MB target returns early with no encoder process launched, but the
result is `success = False` with the "Already smaller" message, so
`__main__` calls `sys.exit(1)`: the process exit code is 1, not 0. -/
theorem C1_counterexample :
    compress_video_model true (some ⟨600, 50 * MB_TO_BYTES, 30, 128⟩) 100
        (fun _ => ((true, Msg.outputPath), 5)) = ((false, Msg.alreadySmaller), 0)
    ∧ mainExitCode (compress_video_model true (some ⟨600, 50 * MB_TO_BYTES, 30, 128⟩) 100
        (fun _ => ((true, Msg.outputPath), 5))).1.1 = 1
    ∧ (1 : ℕ) ≠ 0 := by
  refine ⟨?_, ?_, ?_⟩ <;> norm_num [compress_video_model, mainExitCode, MB_TO_BYTES]

/-- Claim C1 amended: for every input file whose probed size in
megabytes is at or below the target size, the program launches no
encoder process, but the early exit is reported as a failure result
(`success = False`, "Already smaller"), so the process exit code is 1 —
the same code as any other failure — not 0. -/
theorem C1_amended_already_smaller (info : VideoInfo) (target_size_mb : ℕ)
    (encodePhase : VideoInfo → (Bool × Msg) × ℕ)
    (hsmall : (info.sizeBytes : ℚ) / (MB_TO_BYTES : ℚ) ≤ (target_size_mb : ℚ)) :
    compress_video_model true (some info) target_size_mb encodePhase
      = ((false, Msg.alreadySmaller), 0)
    ∧ mainExitCode
        (compress_video_model true (some info) target_size_mb encodePhase).1.1 = 1 := by
  refine ⟨by simp [compress_video_model, hsmall], ?_⟩
  simp [compress_video_model, hsmall, mainExitCode]

/-- Witness for C1's amended theorem at spec Scenario B's numbers. -/
theorem C1_amended_already_smaller_witness :
    compress_video_model true (some ⟨600, 50 * MB_TO_BYTES, 30, 128⟩) 100
        (fun _ => ((false, Msg.encodeFailed), 7)) = ((false, Msg.alreadySmaller), 0)
    ∧ mainExitCode (compress_video_model true (some ⟨600, 50 * MB_TO_BYTES, 30, 128⟩) 100
        (fun _ => ((false, Msg.encodeFailed), 7))).1.1 = 1 :=
  C1_amended_already_smaller ⟨600, 50 * MB_TO_BYTES, 30, 128⟩ 100
    (fun _ => ((false, Msg.encodeFailed), 7)) (by norm_num [MB_TO_BYTES])

/-! ## C2: the bitrate allocation formula -/

/-- Claim C2 counterexample: for a two-segment plan with total target
100 MB, audio 128 kbps and a 100 s segment, the code allocates
`floor(video_MB * 8*1024*1024 / 1000 / 100 * 0.9) = 3659` kbps, while
the claim's formula `floor(video_MB * 8*1024 / 100 * 0.9)` gives 3573:
the code's MB→kbps conversion is `8*1024*1024/1000`, not `8*1024`. -/
theorem C2_counterexample :
    split_bitrate_k 100 128 100 = 3659
    ∧ spec_video_bitrate_kbps (100 / 2) 128 100 = 3573
    ∧ split_bitrate_k 100 128 100 ≠ spec_video_bitrate_kbps (100 / 2) 128 100 := by
  have h1 : split_bitrate_k 100 128 100 = 3659 := by
    have harg : (max (1 / 2 : ℚ) (100 / 2 - 128 * 100 * 1000 / 8 / (MB_TO_BYTES : ℚ))
        * (MB_TO_BITS : ℚ) / 100 / 1000 * BITRATE_SAFETY_FACTOR) = 2287296 / 625 := by
      norm_num [MB_TO_BYTES, MB_TO_BITS, BITRATE_SAFETY_FACTOR]
    rw [split_bitrate_k]
    rw [harg]
    norm_num
  have h2 : spec_video_bitrate_kbps (100 / 2) 128 100 = 3573 := by
    have harg : (max MIN_SEGMENT_MB (100 / 2 - 128 * 100 * 1000 / 8 / (1024 * 1024 : ℚ))
        * 8 * 1024 / 100 * (9 / 10)) = 35739 / 10 := by
      norm_num [MIN_SEGMENT_MB]
    rw [spec_video_bitrate_kbps]
    rw [harg]
    norm_num
  exact ⟨h1, h2, by rw [h1, h2]; norm_num⟩

/-- Claim C2 amended: the allocated bitrate for each segment of a
two-segment plan equals
`floor(video_share_MB * 8*1024*1024 / 1000 / segment_duration_s * SAFETY_FACTOR)`
(conversion constant `8*1024*1024/1000`, not `8*1024`), with
`video_share_MB = max(MIN_SEGMENT_MB, target_share_MB - audio_share_MB)`
and `target_share_MB = total_target_MB / 2`; for the single unsplit pass
the same corrected formula applies with `target_share_MB =
total_target_MB` and with floor `video_share_MB = max(0, ...)` instead
of `MIN_SEGMENT_MB`. -/
theorem C2_amended_allocation (target audio split_time duration : ℚ)
    (_h1 : 0 < split_time) (_h2 : split_time < duration) :
    split_bitrates target audio split_time duration
      = (spec_video_bitrate_kbps_fixed (target / 2) audio split_time,
         spec_video_bitrate_kbps_fixed (target / 2) audio (duration - split_time))
    ∧ ∀ d : ℚ, 0 < d →
        single_pass_bitrate_k target audio d = spec_single_pass_kbps_fixed target audio d := by
  constructor
  · have key : ∀ d : ℚ, split_bitrate_k target audio d
        = spec_video_bitrate_kbps_fixed (target / 2) audio d := by
      intro d
      simp only [split_bitrate_k, spec_video_bitrate_kbps_fixed, MIN_SEGMENT_MB,
        MB_TO_BYTES, MB_TO_BITS, BITRATE_SAFETY_FACTOR]
      push_cast
      congr 1
      ring_nf
    simp [split_bitrates, key]
  · intro d hd
    simp only [single_pass_bitrate_k, spec_single_pass_kbps_fixed, MB_TO_BITS,
      BITRATE_SAFETY_FACTOR]
    push_cast
    congr 1
    rw [show max (0 : ℚ) (target * 8388608 - audio * 1000 * d)
        = 8388608 * max 0 (target - audio * d * 1000 / 8 / (1024 * 1024)) by
      rw [mul_max_of_nonneg _ _ (by norm_num : (0 : ℚ) ≤ 8388608)]
      congr 1
      · norm_num
      · ring]
    ring

/-- Witness for C2's amended theorem at a concrete plan
(target 100 MB, audio 128 kbps, split 100 s of 250 s). -/
theorem C2_amended_allocation_witness :
    split_bitrates 100 128 100 250
      = (spec_video_bitrate_kbps_fixed (100 / 2) 128 100,
         spec_video_bitrate_kbps_fixed (100 / 2) 128 (250 - 100))
    ∧ ∀ d : ℚ, 0 < d →
        single_pass_bitrate_k 100 128 d = spec_single_pass_kbps_fixed 100 128 d :=
  C2_amended_allocation 100 128 100 250 (by norm_num) (by norm_num)

/-! ## C3: the smart split point -/

/-- The code's sentinel-valued split loop computes exactly the amended
option-tracking reading, relating the sentinel `last_k` to the optional
last-observed keyframe by `last_k = k.getD 0`. -/
theorem splitLoop_eq_amended (duration target : ℚ) (ps : List Packet) :
    ∀ (curr : ℚ) (k : Option ℚ),
      splitLoop duration target curr (k.getD 0) ps
        = specSplitLoopAmended duration target curr k ps := by
  induction ps with
  | nil => intro curr k; rfl
  | cons p ps ih =>
    intro curr k
    simp only [splitLoop, specSplitLoopAmended]
    by_cases hc : target ≤ curr + (p.size : ℚ)
    · simp only [hc, if_true]
      by_cases hk : p.key
      · simp [hk]
      · cases k with
        | none => simp [hk]
        | some t => simp [hk]
    · simp only [hc, if_false]
      by_cases hk : p.key
      · simpa [hk] using ih (curr + (p.size : ℚ)) (some p.pts)
      · simpa [hk] using ih (curr + (p.size : ℚ)) k

/-- Claim C3 counterexample: with packets
`[{size 10, pts 0, keyframe}, {size 10, pts 5, not-keyframe}]` and
duration 10, a keyframe IS observed (at timestamp 0) before the byte
midpoint, so the claim requires the planner to return 0; the code's
`last_k > 0` test instead falls back to `duration / 2 = 5`.  Moreover an
enumeration failure of kind `CalledProcessError` does not return
`duration / 2`: it propagates out of videocompress.py's
`get_smart_split_point` uncaught. -/
theorem C3_counterexample :
    get_smart_split_point (.ok [⟨10, 0, true⟩, ⟨10, 5, false⟩]) 10
      ≠ .ok (specSplitClaim [⟨10, 0, true⟩, ⟨10, 5, false⟩] 10)
    ∧ get_smart_split_point (.error ProbeExc.calledProcessError) (10 : ℚ)
      ≠ .ok ((10 : ℚ) / 2) := by
  constructor
  · have hcode : get_smart_split_point (.ok [⟨10, 0, true⟩, ⟨10, 5, false⟩]) 10 = .ok 5 := by
      norm_num [get_smart_split_point, splitLoop]
    have hspec : specSplitClaim [⟨10, 0, true⟩, ⟨10, 5, false⟩] 10 = 0 := by
      norm_num [specSplitClaim, specSplitLoopClaim]
    rw [hcode, hspec]
    intro h
    have h5 : (5 : ℚ) = 0 := by injection h
    norm_num at h5
  · intro h
    simp [get_smart_split_point] at h

/-- Claim C3 amended: at the moment the running byte total first reaches
half the total volume, the planner returns the most recent keyframe
timestamp only when that timestamp is strictly positive, and otherwise
(no keyframe seen, or last keyframe at timestamp ≤ 0) falls back to
`duration / 2`; an enumeration failure falls back to `duration / 2` in
50mb.py and for the caught exception kinds in videocompress.py, while a
non-zero prober exit (`CalledProcessError`) propagates uncaught out of
videocompress.py's planner. -/
theorem C3_amended_split_point (probe : Except ProbeExc (List Packet)) (duration : ℚ) :
    (∀ ps, probe = .ok ps →
        get_smart_split_point probe duration = .ok (specSplitAmended ps duration)
        ∧ get_smart_split_point_50mb probe duration = specSplitAmended ps duration)
    ∧ (∀ e, probe = .error e → e ≠ ProbeExc.calledProcessError →
        get_smart_split_point probe duration = .ok (duration / 2)
        ∧ get_smart_split_point_50mb probe duration = duration / 2)
    ∧ (probe = .error ProbeExc.calledProcessError →
        get_smart_split_point probe duration = .error ProbeExc.calledProcessError
        ∧ get_smart_split_point_50mb probe duration = duration / 2) := by
  have key : ∀ ps : List Packet,
      splitLoop duration (((ps.map (fun p => (p.size : ℚ))).sum) / 2) 0 0 ps
        = specSplitAmended ps duration := by
    intro ps
    have h := splitLoop_eq_amended duration (((ps.map (fun p => (p.size : ℚ))).sum) / 2)
      ps 0 none
    simpa [specSplitAmended] using h
  refine ⟨?_, ?_, ?_⟩
  · rintro ps rfl
    exact ⟨by simp [get_smart_split_point, key],
           by simp [get_smart_split_point_50mb, key]⟩
  · rintro e rfl he
    cases e <;> simp_all [get_smart_split_point, get_smart_split_point_50mb]
  · rintro rfl
    simp [get_smart_split_point, get_smart_split_point_50mb]

/-- Witness for C3's amended theorem on a concrete packet list. -/
theorem C3_amended_split_point_witness :
    get_smart_split_point (.ok [⟨6, 2, true⟩, ⟨6, 5, false⟩]) 8
      = .ok (specSplitAmended [⟨6, 2, true⟩, ⟨6, 5, false⟩] 8)
    ∧ get_smart_split_point_50mb (.ok [⟨6, 2, true⟩, ⟨6, 5, false⟩]) 8
      = specSplitAmended [⟨6, 2, true⟩, ⟨6, 5, false⟩] 8 :=
  (C3_amended_split_point (.ok [⟨6, 2, true⟩, ⟨6, 5, false⟩]) 8).1
    [⟨6, 2, true⟩, ⟨6, 5, false⟩] rfl

/-! ## C8: encoder selection never fails -/

/-- The selection loop returns the first available candidate, or
`"libx265"` when none is available. -/
theorem selectLoop_first (probe : String → ProbeOutcome) (l : List String) :
    (∃ i : ℕ, ∃ h : i < l.length,
        selectLoop probe l = l.get ⟨i, h⟩
        ∧ check_encoder_available probe (l.get ⟨i, h⟩) = true
        ∧ ∀ e ∈ l.take i, check_encoder_available probe e = false)
    ∨ (selectLoop probe l = "libx265"
        ∧ ∀ e ∈ l, check_encoder_available probe e = false) := by
  induction l with
  | nil => right; exact ⟨rfl, by simp⟩
  | cons e rest ih =>
    by_cases he : check_encoder_available probe e = true
    · left
      refine ⟨0, by simp, ?_, ?_, ?_⟩
      · simp [selectLoop, he]
      · simpa using he
      · simp
    · have hsl : selectLoop probe (e :: rest) = selectLoop probe rest := by
        simp [selectLoop, he]
      rcases ih with ⟨i, h, hsel, hav, hbefore⟩ | ⟨hsel, hall⟩
      · left
        refine ⟨i + 1, by simpa using Nat.succ_lt_succ h, ?_, ?_, ?_⟩
        · rw [hsl]; simpa using hsel
        · simpa using hav
        · intro x hx
          rw [List.take_succ_cons] at hx
          rcases List.mem_cons.mp hx with rfl | hx
          · simpa using he
          · exact hbefore x hx
      · right
        refine ⟨by rw [hsl]; exact hsel, ?_⟩
        intro x hx
        rcases List.mem_cons.mp hx with rfl | hx
        · simpa using he
        · exact hall x hx

/-- Claim C8: encoder selection never fails — for every platform and
every availability outcome of the candidate probes,
`select_best_encoder` returns the first candidate in the
platform-specific priority order whose synthetic test encode succeeds,
and returns the software encoder `libx265` when none succeeds; a probe
failure (non-zero exit, missing binary, OS error) is classified
Unavailable and never propagated as an error. -/
theorem C8_selection_total (p : Platform) (probe : String → ProbeOutcome) :
    ((∃ i : ℕ, ∃ h : i < (priority_chain p).length,
        select_best_encoder p probe = (priority_chain p).get ⟨i, h⟩
        ∧ check_encoder_available probe ((priority_chain p).get ⟨i, h⟩) = true
        ∧ ∀ e ∈ (priority_chain p).take i, check_encoder_available probe e = false)
      ∨ (select_best_encoder p probe = "libx265"
          ∧ ∀ e ∈ priority_chain p, check_encoder_available probe e = false))
    ∧ ∀ enc : String, probe enc ≠ ProbeOutcome.ok →
        check_encoder_available probe enc = false := by
  constructor
  · exact selectLoop_first probe (priority_chain p)
  · intro enc h
    cases hpe : probe enc <;> simp_all [check_encoder_available]

/-- Witness for C8 on a concrete probe function where every candidate
probe exits non-zero: the failure is classified Unavailable. -/
theorem C8_selection_total_witness :
    check_encoder_available (fun _ => ProbeOutcome.exitNonzero) "hevc_nvenc" = false :=
  (C8_selection_total Platform.linux (fun _ => ProbeOutcome.exitNonzero)).2
    "hevc_nvenc" (fun h => ProbeOutcome.noConfusion h)

/-! ## C9: cleanup idempotence -/

/-- The guarded remove equals `Finset.erase` (removing a missing file is
the identity, without error). -/
theorem removeIfExists_eq_erase (fs : Finset String) (f : String) :
    removeIfExists fs f = fs.erase f := by
  by_cases h : f ∈ fs <;> simp [removeIfExists, h, Finset.erase_eq_self.mpr]

/-- Membership after removing a list of file names. -/
theorem mem_foldl_removeIfExists (L : List String) :
    ∀ (fs : Finset String) (a : String),
      a ∈ L.foldl removeIfExists fs ↔ a ∈ fs ∧ a ∉ L := by
  induction L with
  | nil => intro fs a; simp
  | cons x L ih =>
    intro fs a
    rw [List.foldl_cons, ih, removeIfExists_eq_erase, Finset.mem_erase]
    simp only [List.mem_cons]
    tauto

/-- Membership after the per-prefix pass-log removal loop. -/
theorem mem_foldl_prefixPair (P : List String) :
    ∀ (fs : Finset String) (a : String),
      a ∈ P.foldl (fun acc p =>
          removeIfExists (removeIfExists acc (p ++ "-0.log")) (p ++ "-0.log.mbtree")) fs
        ↔ a ∈ fs ∧ ∀ p ∈ P, a ≠ p ++ "-0.log" ∧ a ≠ p ++ "-0.log.mbtree" := by
  induction P with
  | nil => intro fs a; simp
  | cons x P ih =>
    intro fs a
    rw [List.foldl_cons, ih, removeIfExists_eq_erase, removeIfExists_eq_erase,
      Finset.mem_erase, Finset.mem_erase]
    constructor
    · rintro ⟨⟨h1, h2, h3⟩, h4⟩
      refine ⟨h3, ?_⟩
      intro p hp
      rcases List.mem_cons.mp hp with rfl | hp
      exacts [⟨h2, h1⟩, h4 p hp]
    · rintro ⟨h1, h2⟩
      exact ⟨⟨(h2 x (by simp)).2, (h2 x (by simp)).1, h1⟩, fun p hp => h2 p (by simp [hp])⟩

/-- Membership characterisation of one full cleanup invocation. -/
theorem mem_cleanupJob (tmp : String) (P : List String) (fs : Finset String) (a : String) :
    a ∈ cleanupJob tmp P fs
      ↔ (a ∈ fs ∧ tmp.isPrefixOf a = false)
        ∧ a ∉ LOG_FILES_TO_CLEAN
        ∧ ∀ p ∈ P, a ≠ p ++ "-0.log" ∧ a ≠ p ++ "-0.log.mbtree" := by
  rw [cleanupJob, clean_log_file]
  rw [mem_foldl_prefixPair, mem_foldl_removeIfExists]
  rw [rmtreeDir, Finset.mem_filter]
  tauto

/-- Claim C9: for every job directory state, invoking Cleanup (log-file
removal and temporary-directory removal) twice in a row is a no-op the
second time: the second invocation removes nothing, raises no error on
already-missing files (removal of an absent file is the identity), and
leaves the filesystem state unchanged. -/
theorem C9_cleanup_idempotent (fs : Finset String) (tmp : String) (P : List String) :
    cleanupJob tmp P (cleanupJob tmp P fs) = cleanupJob tmp P fs
    ∧ ∀ f, f ∉ fs → removeIfExists fs f = fs := by
  constructor
  · ext a
    rw [mem_cleanupJob, mem_cleanupJob]
    tauto
  · intro f h
    simp [removeIfExists, h]

/-- Witness for C9 on a concrete filesystem state. -/
theorem C9_cleanup_idempotent_witness :
    removeIfExists {"keep.mp4"} "absent.log" = {"keep.mp4"} :=
  (C9_cleanup_idempotent {"keep.mp4"} "/tmp/vidcomp_x" ["log_part1"]).2
    "absent.log" (by decide)

/-! ## C7: artifact removal on every exit path -/

/-- Removing every artifact name leaves nothing, whatever was present:
all six artifact kinds live inside the temporary directory. -/
theorem rmtreeTmpArts_eq_empty (fs : Finset Art) : rmtreeTmpArts fs = ∅ := by
  ext a
  cases a <;> simp [rmtreeTmpArts]

/-- Claim C7 counterexample: in 50mb.py a pass-1 process failure
(worker A exits non-zero after the pass logs were written) returns
`(False, "Pass 1 Failed")` with the two pass-log files still on disk —
transient artifacts are NOT removed on that exit path. -/
theorem C7_counterexample :
    (fiftyNvenc ⟨true, false, false, true, true, false, true, true, true⟩).1
      = .ok (false, Msg.pass1Failed)
    ∧ (fiftyNvenc ⟨true, false, false, true, true, false, true, true, true⟩).2
      = {Art.logA, Art.logB}
    ∧ ({Art.logA, Art.logB} : Finset Art) ≠ ∅ := by
  refine ⟨rfl, rfl, by decide⟩

/-- Claim C7 amended: in videocompress.py every exit path of the NVENC
two-pass branch (success, pass failure, stitch failure, cancellation,
for every combination of process outcomes) and of the hardware split
single-pass encoder leaves no transient artifact behind: the `finally`
blocks remove the temporary directory that contains all of them.  In
50mb.py, a pass failure or stitch failure returns without removing the
artifacts created so far (the counterexample). -/
theorem C7_amended_cleanup_on_exit (env : EncEnv) :
    (vcNvenc env).2 = ∅ ∧ (vcHwSplit env).2 = ∅ :=
  ⟨rmtreeTmpArts_eq_empty _, rmtreeTmpArts_eq_empty _⟩

/-! ## C4 / C10: ProgressTracker runs -/

/-- `update` never touches the durations or the stored total duration. -/
theorem applyUpdates_preserves (us : List UpdateCall) :
    ∀ s : Tracker, (applyUpdates s us).dur_a = s.dur_a
      ∧ (applyUpdates s us).dur_b = s.dur_b
      ∧ (applyUpdates s us).total_dur = s.total_dur := by
  induction us with
  | nil => intro s; exact ⟨rfl, rfl, rfl⟩
  | cons u us ih =>
    intro s
    have h := ih (s.update u)
    cases hu : u.is_a <;>
      simpa [applyUpdates, Tracker.update, hu] using h

/-- Running a concatenated call list is running the two pieces in order. -/
theorem applyUpdates_append_eq (us vs : List UpdateCall) :
    ∀ s, applyUpdates s (us ++ vs) = applyUpdates (applyUpdates s us) vs := by
  induction us with
  | nil => intro s; rfl
  | cons u us ih =>
    intro s
    rw [List.cons_append, applyUpdates, applyUpdates]
    exact ih (s.update u)

/-- A run with only-increasing elapsed times splits into two such runs. -/
theorem increasingRun_append_split (us vs : List UpdateCall) :
    ∀ s : Tracker, increasingRun s (us ++ vs) = true →
      increasingRun s us = true ∧ increasingRun (applyUpdates s us) vs = true := by
  induction us with
  | nil => intro s h; exact ⟨rfl, h⟩
  | cons u us ih =>
    intro s h
    rw [List.cons_append, increasingRun, Bool.and_eq_true] at h
    obtain ⟨h1, h2⟩ := h
    obtain ⟨h3, h4⟩ := ih (s.update u) h2
    refine ⟨?_, ?_⟩
    · rw [increasingRun, Bool.and_eq_true]
      exact ⟨h1, h3⟩
    · rw [applyUpdates]
      exact h4

/-- Along an only-increasing run, each stored elapsed time can only grow. -/
theorem increasingRun_time_le (us : List UpdateCall) :
    ∀ s : Tracker, increasingRun s us = true →
      s.time_a ≤ (applyUpdates s us).time_a ∧ s.time_b ≤ (applyUpdates s us).time_b := by
  induction us with
  | nil => intro s _; exact ⟨le_refl _, le_refl _⟩
  | cons u us ih =>
    intro s hrun
    rw [increasingRun, Bool.and_eq_true] at hrun
    obtain ⟨hfirst, hrest⟩ := hrun
    have h2 := ih (s.update u) hrest
    rw [applyUpdates]
    cases hu : u.is_a
    · simp only [hu, Bool.false_eq_true, if_false, decide_eq_true_eq] at hfirst
      constructor
      · calc s.time_a = (s.update u).time_a := by simp [Tracker.update, hu]
          _ ≤ _ := h2.1
      · calc s.time_b ≤ u.time_val := hfirst
          _ = (s.update u).time_b := by simp [Tracker.update, hu]
          _ ≤ _ := h2.2
    · simp only [hu, if_true, decide_eq_true_eq] at hfirst
      constructor
      · calc s.time_a ≤ u.time_val := hfirst
          _ = (s.update u).time_a := by simp [Tracker.update, hu]
          _ ≤ _ := h2.1
      · calc s.time_b = (s.update u).time_b := by simp [Tracker.update, hu]
          _ ≤ _ := h2.2

/-- The progress component of `get_stats`, spelled out. -/
theorem progressOf_formula (s : Tracker) :
    progressOf s
      = min 100 ((min s.time_a s.dur_a + min s.time_b s.dur_b) / s.total_dur * 100) :=
  rfl

/-- With nonnegative durations, positive total and nonnegative times,
progress lies in `[0, 100]`. -/
theorem progress_bounds (s : Tracker) (hda : 0 ≤ s.dur_a) (hdb : 0 ≤ s.dur_b)
    (hpos : 0 < s.total_dur) (hta : 0 ≤ s.time_a) (htb : 0 ≤ s.time_b) :
    0 ≤ progressOf s ∧ progressOf s ≤ 100 := by
  rw [progressOf_formula]
  constructor
  · apply le_min (by norm_num)
    apply mul_nonneg _ (by norm_num)
    exact div_nonneg (add_nonneg (le_min hta hda) (le_min htb hdb)) (le_of_lt hpos)
  · exact min_le_left _ _

/-- Progress is monotone in the two elapsed times when the durations and
total are unchanged. -/
theorem progress_mono_times (s s2 : Tracker)
    (hda : s2.dur_a = s.dur_a) (hdb : s2.dur_b = s.dur_b)
    (hT : s2.total_dur = s.total_dur) (hpos : 0 < s.total_dur)
    (h1 : s.time_a ≤ s2.time_a) (h2 : s.time_b ≤ s2.time_b) :
    progressOf s ≤ progressOf s2 := by
  rw [progressOf_formula, progressOf_formula, hda, hdb, hT]
  apply min_le_min (le_refl (100 : ℚ))
  apply mul_le_mul_of_nonneg_right _ (by norm_num : (0 : ℚ) ≤ 100)
  exact (div_le_div_iff_of_pos_right hpos).mpr
    (add_le_add (min_le_min h1 (le_refl _)) (min_le_min h2 (le_refl _)))

/-- Claim C4: for every sequence of update calls on a ProgressTracker in
which each segment's elapsed time only increases, the progress value
returned by successive get_stats calls is monotonically non-decreasing,
and every returned progress value lies in `[0, 100]`.  The tracker is
constructed from segment durations, which are nonnegative with positive
sum (SplitPlan in the spec's data model: `0 < t < duration`); `us` is an
arbitrary poll point of the run and `us ++ vs` a later one. -/
theorem C4_progress_monotone_bounded (da db : ℚ) (us vs : List UpdateCall)
    (hda : 0 ≤ da) (hdb : 0 ≤ db) (hpos : 0 < da + db)
    (hrun : increasingRun (Tracker.init da db) (us ++ vs) = true) :
    (0 ≤ progressOf (applyUpdates (Tracker.init da db) us)
      ∧ progressOf (applyUpdates (Tracker.init da db) us) ≤ 100)
    ∧ progressOf (applyUpdates (Tracker.init da db) us)
        ≤ progressOf (applyUpdates (Tracker.init da db) (us ++ vs)) := by
  obtain ⟨hrun1, hrun2⟩ := increasingRun_append_split us vs _ hrun
  have hp1 := applyUpdates_preserves us (Tracker.init da db)
  have h1da : (applyUpdates (Tracker.init da db) us).dur_a = da := hp1.1
  have h1db : (applyUpdates (Tracker.init da db) us).dur_b = db := hp1.2.1
  have h1T : (applyUpdates (Tracker.init da db) us).total_dur = da + db := hp1.2.2
  have htimes := increasingRun_time_le us (Tracker.init da db) hrun1
  have h1ta : 0 ≤ (applyUpdates (Tracker.init da db) us).time_a := htimes.1
  have h1tb : 0 ≤ (applyUpdates (Tracker.init da db) us).time_b := htimes.2
  constructor
  · exact progress_bounds _ (by rw [h1da]; exact hda) (by rw [h1db]; exact hdb)
      (by rw [h1T]; exact hpos) h1ta h1tb
  · rw [applyUpdates_append_eq]
    have hp2 := applyUpdates_preserves vs (applyUpdates (Tracker.init da db) us)
    have htimes2 := increasingRun_time_le vs _ hrun2
    exact progress_mono_times _ _ hp2.1 hp2.2.1 hp2.2.2 (by rw [h1T]; exact hpos)
      htimes2.1 htimes2.2

/-- Witness for C4 on a concrete increasing run. -/
theorem C4_progress_monotone_bounded_witness :
    (0 ≤ progressOf (applyUpdates (Tracker.init 10 10) [⟨true, 2, 30, 1⟩])
      ∧ progressOf (applyUpdates (Tracker.init 10 10) [⟨true, 2, 30, 1⟩]) ≤ 100)
    ∧ progressOf (applyUpdates (Tracker.init 10 10) [⟨true, 2, 30, 1⟩])
        ≤ progressOf (applyUpdates (Tracker.init 10 10)
            ([⟨true, 2, 30, 1⟩] ++ [⟨false, 3, 25, 2⟩])) :=
  C4_progress_monotone_bounded 10 10 [⟨true, 2, 30, 1⟩] [⟨false, 3, 25, 2⟩]
    (by norm_num) (by norm_num) (by norm_num)
    (by norm_num [increasingRun, applyUpdates, Tracker.update, Tracker.init])

/-- The speed fields start non-zero (`0.001`) and `update` overwrites
them only with non-zero values, so they are never zero. -/
theorem spd_ne_zero_run (us : List UpdateCall) :
    ∀ s : Tracker, s.spd_a ≠ 0 → s.spd_b ≠ 0 →
      (applyUpdates s us).spd_a ≠ 0 ∧ (applyUpdates s us).spd_b ≠ 0 := by
  induction us with
  | nil => intro s ha hb; exact ⟨ha, hb⟩
  | cons u us ih =>
    intro s ha hb
    rw [applyUpdates]
    apply ih
    · cases hu : u.is_a
      · simpa [Tracker.update, hu] using ha
      · by_cases hv : u.speed_val = 0
        · simpa [Tracker.update, hu, hv] using ha
        · simp [Tracker.update, hu, hv]
    · cases hu : u.is_a
      · by_cases hv : u.speed_val = 0
        · simpa [Tracker.update, hu, hv] using hb
        · simp [Tracker.update, hu, hv]
      · simpa [Tracker.update, hu] using hb

/-- Claim C10: for every ProgressTracker constructed with (nonnegative)
segment durations not both zero and every sequence of update calls,
get_stats never divides by zero — the speed divisors are initialized to
0.001 and update replaces them only with non-zero values, so they are
never zero; whereas a tracker constructed with both durations equal to
zero raises a division-by-zero error in get_stats when computing
progress (modelled as `get_stats_exc = none`). -/
theorem C10_no_zero_division (da db : ℚ) (us : List UpdateCall)
    (hda : 0 ≤ da) (hdb : 0 ≤ db) (hnb : ¬ (da = 0 ∧ db = 0)) :
    ((applyUpdates (Tracker.init da db) us).spd_a ≠ 0
      ∧ (applyUpdates (Tracker.init da db) us).spd_b ≠ 0)
    ∧ (∃ r, (applyUpdates (Tracker.init da db) us).get_stats_exc = some r)
    ∧ ∀ ws : List UpdateCall,
        (applyUpdates (Tracker.init 0 0) ws).get_stats_exc = none := by
  have hspd := spd_ne_zero_run us (Tracker.init da db)
    (by norm_num [Tracker.init]) (by norm_num [Tracker.init])
  have hT : (applyUpdates (Tracker.init da db) us).total_dur = da + db :=
    (applyUpdates_preserves us _).2.2
  have hpos : da + db ≠ 0 := fun h => hnb ((add_eq_zero_iff_of_nonneg hda hdb).mp h)
  refine ⟨hspd, ?_, ?_⟩
  · exact ⟨(applyUpdates (Tracker.init da db) us).get_stats,
      by simp [Tracker.get_stats_exc, hT, hpos, hspd.1, hspd.2]⟩
  · intro ws
    have hT0 : (applyUpdates (Tracker.init 0 0) ws).total_dur = 0 := by
      rw [(applyUpdates_preserves ws _).2.2]
      norm_num [Tracker.init]
    simp [Tracker.get_stats_exc, hT0]

/-- Witness for C10 at concrete durations 10 and 0 (not both zero). -/
theorem C10_no_zero_division_witness :
    ((applyUpdates (Tracker.init 10 0) []).spd_a ≠ 0
      ∧ (applyUpdates (Tracker.init 10 0) []).spd_b ≠ 0)
    ∧ (∃ r, (applyUpdates (Tracker.init 10 0) []).get_stats_exc = some r)
    ∧ ∀ ws : List UpdateCall,
        (applyUpdates (Tracker.init 0 0) ws).get_stats_exc = none :=
  C10_no_zero_division 10 0 [] (by norm_num) (by norm_num) (by norm_num)
